import Mathlib

/-!
Verification of the lopocs ingestion CLI (`lopocs/cli.py`).

The definitions below are a shallow embedding of the code in `cli.py`:
the table-name handling and precision planning of `_load`, the pipeline
template, the metadata persistence calls, the cache-filename derivation,
and the SRID resolver `proj42epsg`.  External collaborators (the `pdal`
subprocesses, the GDAL `SpatialReference` object, the EPSG definitions
file) are modelled as explicit inputs; Python floats are modelled as
rationals, and Python strings as `String` or `List Char`.
-/

namespace Lopocs

/-! ## Table-name handling (`cli.py` lines 103-105 and 142) -/

/-- Line 104-105: `if '.' not in table: table = 'public.{}'.format(table)`. -/
def normalizeTable (table : List Char) : List Char :=
  if '.' ∈ table then table else "public.".toList ++ table

/-- Python's `str.split('.')`: split on every occurrence of `'.'`,
keeping empty fields. -/
def splitOnDot : List Char → List (List Char)
  | [] => [[]]
  | c :: rest =>
    if c = '.' then [] :: splitOnDot rest
    else
      match splitOnDot rest with
      | [] => [[c]]
      | g :: gs => (c :: g) :: gs

/-- Errors that the modelled slice of `_load` can raise.  `valueError` is
Python's `ValueError` from unpacking `table.split('.')` into two names
(line 142); the code has no `ConfigError` of any kind. -/
inductive LoadErr where
  | calledProcess
  | valueError
  deriving DecidableEq, Repr

deriving instance DecidableEq for Except

/-- Line 142: `schema, tab = table.split('.')` — succeeds exactly when the
split yields two fields, otherwise Python raises `ValueError`. -/
def splitSchemaTab (t : List Char) : Except LoadErr (List Char × List Char) :=
  match splitOnDot t with
  | [s, tab] => Except.ok (s, tab)
  | _ => Except.error LoadErr.valueError

/-- External invocations made by `_load`, in order. -/
inductive Ev where
  | pdalInfo
  | pdalPipeline
  deriving DecidableEq, Repr

/-- Lines 103-142 of `_load`: the table is normalized (104-105), then
`pdal info --summary` is invoked (107-109), and only later is the table
unpacked into schema and name (142).  The first component records the
external invocations made before the unpack. -/
def loadTablePhase (table : List Char) :
    List Ev × Except LoadErr (List Char × List Char) :=
  let t := normalizeTable table
  ([Ev.pdalInfo], splitSchemaTab t)

/-! ## Precision planner (`cli.py` lines 115-135) -/

structure Bounds where
  xmin : ℚ
  xmax : ℚ
  ymin : ℚ
  ymax : ℚ
  zmin : ℚ
  zmax : ℚ
  deriving DecidableEq, Repr

/-- The parsed output of `pdal info --summary`. -/
structure Summary where
  isgeographic : Bool
  bounds : Bounds
  proj4 : String
  deriving DecidableEq, Repr

/-- Python's `round(x, 2)`. -/
def round2 (q : ℚ) : ℚ := (round (q * 100) : ℤ) / 100

/-- Lines 115-135: scales from the geographic flag, offsets as the rounded
bounding-box midpoints, then the e57 override applied last.  Returns
`(scales, offsets)`. -/
def quantization (s : Summary) (extension : String) :
    (ℚ × ℚ × ℚ) × (ℚ × ℚ × ℚ) :=
  let scales : ℚ × ℚ × ℚ :=
    if s.isgeographic then (1/1000000, 1/1000000, 1/100)
    else (1/100, 1/100, 1/100)
  let ox := round2 (s.bounds.xmin + (s.bounds.xmax - s.bounds.xmin) / 2)
  let oy := round2 (s.bounds.ymin + (s.bounds.ymax - s.bounds.ymin) / 2)
  let oz := round2 (s.bounds.zmin + (s.bounds.zmax - s.bounds.zmin) / 2)
  if extension = "e57" then ((1, 1, 1), (0, 0, 0))
  else (scales, (ox, oy, oz))

/-! ## SRID resolver (`cli.py` lines 283-328, `proj42epsg`) -/

/-- The GDAL `SpatialReference` object built from the input proj4 string,
modelled by the observations `proj42epsg` makes of it: the return value of
`ImportFromProj4`, the `IsLocal`/`IsGeographic` classification, the WKT
export, the authority name/code lookups, and the proj4 re-export
(`ExportToProj4`, empty when the re-export fails). -/
structure SpatialRef where
  importResult : Int
  isLocal : Bool
  isGeographic : Bool
  wkt : String
  authorityName : String → Option String
  authorityCode : String → Option String
  exportToProj4 : String

/-- Line 303-306: `'GEOGCS'` for a geographic srs, else `'PROJCS'`. -/
def cstypeOf (p : SpatialRef) : String :=
  if p.isGeographic then "GEOGCS" else "PROJCS"

/-- Python's `line.find(needle) != -1`: substring occurrence test. -/
def containsSub (needle : List Char) : List Char → Bool
  | [] => needle.isEmpty
  | c :: rest => needle.isPrefixOf (c :: rest) || containsSub needle rest

/-- The regex search `re.search('<(\\d+)>', line)`: the digits of the first
angle-bracket-delimited integer in the line, if any. -/
def bracketDigits : List Char → Option (List Char)
  | [] => none
  | c :: rest =>
    if c = '<' then
      let ds := rest.takeWhile Char.isDigit
      if ds ≠ [] ∧ (rest.dropWhile Char.isDigit).head? = some '>' then some ds
      else bracketDigits rest
    else bracketDigits rest

/-- Lines 316-326: the linear scan of the EPSG definitions file.  `code`
starts at `'4326'` and is replaced by the digit group of the first line
that both contains `p_out` and matches `<(\d+)>`. -/
def scanEpsg (p_out : List Char) : List (List Char) → String
  | [] => "4326"
  | line :: rest =>
    if containsSub p_out line then
      match bracketDigits line with
      | some ds => String.mk ds
      | none => scanEpsg p_out rest
    else scanEpsg p_out rest

/-- `proj42epsg` (lines 283-328), with the parsed reference and the lines
of the EPSG definitions file supplied as inputs. -/
def proj42epsg (p_in : SpatialRef) (epsgLines : List (List Char))
    (forceProj4 : Bool) : String :=
  let code := "4326"
  if p_in.importResult = 5 then code
  else if p_in.isLocal then p_in.wkt
  else
    match p_in.authorityName (cstypeOf p_in), p_in.authorityCode (cstypeOf p_in) with
    | some _, some ac => ac
    | _, _ =>
      let p_out := p_in.exportToProj4
      if p_out ≠ "" then
        if forceProj4 then p_out
        else scanEpsg p_out.toList epsgLines
      else code

/-! ## Pipeline assembly (`cli.py` lines 145-176) -/

/-- One stage of the JSON pipeline template. -/
inductive Stage where
  | read (format : String) (filename : String)
  | chipper (capacity : Nat)
  | revertmorton
  | write (connection schema tab compression srid overwrite column : String)
      (scale_x scale_y scale_z offset_x offset_y offset_z : ℚ)
  deriving DecidableEq, Repr

/-- The write stage's destination column, when the stage is a write. -/
def Stage.writeColumn : Stage → Option String
  | .write _ _ _ _ _ _ column _ _ _ _ _ _ => some column
  | _ => none

set_option linter.unusedVariables false in
/-- The `json_pipeline` template of `_load` (lines 145-176).  `column` is
the caller-supplied column name in scope at that point of `_load`; the
template's write stage sets `"column": "points"` literally. -/
def jsonPipeline (extension realfilename connection schema tab srid : String)
    (column : String) (scale_x scale_y scale_z offset_x offset_y offset_z : ℚ) :
    List Stage :=
  [Stage.read extension realfilename,
   Stage.chipper 400,
   Stage.revertmorton,
   Stage.write connection schema tab "none" srid "true" "points"
     scale_x scale_y scale_z offset_x offset_y offset_z]

/-! ## Metadata persistence (`cli.py` lines 198-207) -/

/-- The arguments of `Session.update_metadata` (lines 199-202). -/
structure MetadataCall where
  table : String
  column : String
  srid : String
  scale_x : ℚ
  scale_y : ℚ
  scale_z : ℚ
  offset_x : ℚ
  offset_y : ℚ
  offset_z : ℚ
  deriving DecidableEq, Repr

/-- The arguments of `Session.add_output_schema` (lines 204-207), minus
the opaque `potree_schema` document. -/
structure OutputSchemaCall where
  table : String
  column : String
  scale_x : ℚ
  scale_y : ℚ
  scale_z : ℚ
  offset_x : ℚ
  offset_y : ℚ
  offset_z : ℚ
  srid : String
  deriving DecidableEq, Repr

/-- Lines 198-207 of `_load`: persist the ingestion metadata, then the
potree output schema whose scales are the literals `0.01, 0.01, 0.01`. -/
def metadataStep (table column srid : String)
    (scale_x scale_y scale_z offset_x offset_y offset_z : ℚ) :
    MetadataCall × OutputSchemaCall :=
  (⟨table, column, srid, scale_x, scale_y, scale_z, offset_x, offset_y, offset_z⟩,
   ⟨table, column, 1/100, 1/100, 1/100, offset_x, offset_y, offset_z, srid⟩)

/-! ## Cache filename (`cli.py` lines 217-229)

Python's `str` on the bounding-box numbers is modelled by `ratStr`, an
injective decimal-free textual rendering of rationals (distinct Python
float values also have distinct `str` images, which is the only property
of the rendering the code relies on). -/

/-- The character of a decimal digit. -/
def digChar (d : Nat) : Char := Char.ofNat (48 + d)

/-- Inverse of `digChar` on digits. -/
def charDig (c : Char) : Nat := c.toNat - 48

/-- Little-endian decimal digits of `n`, computed with explicit fuel so
that the kernel can evaluate it (`Nat.digits` is well-founded recursion). -/
def natDigitsRev : Nat → Nat → List Nat
  | 0, _ => []
  | fuel + 1, n => if n = 0 then [] else n % 10 :: natDigitsRev fuel (n / 10)

/-- Decimal rendering of a natural number, most significant digit first. -/
def natStr (n : Nat) : List Char :=
  if n = 0 then ['0'] else ((natDigitsRev n n).map digChar).reverse

/-- Textual rendering of an integer. -/
def intStr (i : Int) : List Char :=
  if i < 0 then '-' :: natStr i.natAbs else natStr i.natAbs

/-- Injective textual rendering of a rational number. -/
def ratStr (q : ℚ) : List Char := intStr q.num ++ '/' :: natStr q.den

/-- Lines 217-229 of `_load`: the `.hcy` cache filename built from the
session's table and column, the LOD bounds, and the six bounding-box
scalars joined with `'_'`. -/
def cacheFile (table column : List Char) (lodMin lodMax : Nat)
    (xmin ymin zmin xmax ymax zmax : ℚ) : List Char :=
  table ++ '_' :: column ++ '_' :: natStr lodMin ++ '_' :: natStr lodMax ++ '_' ::
    List.intercalate ['_'] ([xmin, ymin, zmin, xmax, ymax, zmax].map ratStr) ++
    ".hcy".toList

/-! ## Helper lemmas -/

lemma splitOnDot_ne_nil : ∀ l : List Char, splitOnDot l ≠ []
  | [] => by simp [splitOnDot]
  | c :: rest => by
    simp only [splitOnDot]
    split
    · simp
    · cases h : splitOnDot rest <;> simp [h]

lemma splitOnDot_length (l : List Char) :
    (splitOnDot l).length = l.count '.' + 1 := by
  induction l with
  | nil => simp [splitOnDot]
  | cons c rest ih =>
    simp only [splitOnDot]
    by_cases hc : c = '.'
    · subst hc
      simp [List.count_cons, ih]
    · rw [if_neg hc]
      cases h : splitOnDot rest with
      | nil => exact absurd h (splitOnDot_ne_nil rest)
      | cons g gs =>
        have hlen : (g :: gs).length = rest.count '.' + 1 := h ▸ ih
        simp only [List.length_cons] at hlen ⊢
        simp [List.count_cons, hc, hlen]

lemma splitSchemaTab_error_of_length {t : List Char}
    (h : (splitOnDot t).length ≠ 2) :
    splitSchemaTab t = Except.error LoadErr.valueError := by
  unfold splitSchemaTab
  rcases hsp : splitOnDot t with _ | ⟨s, _ | ⟨tab, _ | ⟨x, rest⟩⟩⟩
  · rfl
  · rfl
  · rw [hsp] at h; simp at h
  · rfl

lemma length_two_shape {α : Type} {l : List α} (h : l.length = 2) :
    ∃ a b, l = [a, b] := by
  cases l with
  | nil => simp at h
  | cons a l' =>
    cases l' with
    | nil => simp at h
    | cons b l'' =>
      cases l'' with
      | nil => exact ⟨a, b, rfl⟩
      | cons x l''' => simp at h

end Lopocs

namespace Lopocs

/-! ## Claim theorems -/

/-- C1 (amended): a table argument with no separator is prefixed with the
default schema `public`; a name with exactly one separator is left
unchanged and unpacks into schema and table; but a name with more than one
separator is *not* rejected with a `ConfigError` before external calls —
normalization leaves it unchanged, the external `pdal info` summary call
runs, and the later `schema, tab = table.split('.')` unpack raises a
`ValueError`. -/
theorem C1_table_normalization (t : List Char) :
    ('.' ∉ t → normalizeTable t = "public.".toList ++ t) ∧
    (t.count '.' = 1 →
      normalizeTable t = t ∧
      ∃ s tab, splitSchemaTab (normalizeTable t) = Except.ok (s, tab)) ∧
    (1 < t.count '.' →
      normalizeTable t = t ∧
      (loadTablePhase t).2 = Except.error LoadErr.valueError ∧
      Ev.pdalInfo ∈ (loadTablePhase t).1) := by
  refine ⟨?_, ?_, ?_⟩
  · intro h
    simp [normalizeTable, h]
  · intro h
    have hmem : '.' ∈ t := by
      by_contra hm
      rw [← List.count_eq_zero] at hm
      omega
    have hnorm : normalizeTable t = t := by simp [normalizeTable, hmem]
    refine ⟨hnorm, ?_⟩
    rw [hnorm]
    have hlen : (splitOnDot t).length = 2 := by rw [splitOnDot_length, h]
    obtain ⟨s, tab, hsp⟩ := length_two_shape hlen
    exact ⟨s, tab, by simp [splitSchemaTab, hsp]⟩
  · intro h
    have hmem : '.' ∈ t := by
      by_contra hm
      rw [← List.count_eq_zero] at hm
      omega
    have hnorm : normalizeTable t = t := by simp [normalizeTable, hmem]
    have herr : splitSchemaTab t = Except.error LoadErr.valueError := by
      apply splitSchemaTab_error_of_length
      rw [splitOnDot_length]
      omega
    refine ⟨hnorm, ?_, ?_⟩
    · simp [loadTablePhase, hnorm, herr]
    · simp [loadTablePhase]

/-- Witness for C1: the three behaviours at `"foo"`, `"myschema.foo"` and
`"a.b.c"`. -/
theorem C1_table_normalization_witness :
    normalizeTable "foo".toList = "public.".toList ++ "foo".toList ∧
    (normalizeTable "myschema.foo".toList = "myschema.foo".toList ∧
      ∃ s tab,
        splitSchemaTab (normalizeTable "myschema.foo".toList) = Except.ok (s, tab)) ∧
    (loadTablePhase "a.b.c".toList).2 = Except.error LoadErr.valueError :=
  ⟨(C1_table_normalization "foo".toList).1 (by decide),
   (C1_table_normalization "myschema.foo".toList).2.1 (by decide),
   ((C1_table_normalization "a.b.c".toList).2.2 (by decide)).2.1⟩

/-- C1 counterexample: on the table argument `"a.b.c"` the run does *not*
fail with a `ConfigError` before any external tool is invoked — the
failure is the `ValueError` of the schema/table unpack, and the trace of
external invocations made before it is nonempty (`pdal info` already
ran). -/
theorem C1_counterexample :
    (loadTablePhase "a.b.c".toList).2 = Except.error LoadErr.valueError ∧
    (loadTablePhase "a.b.c".toList).1 ≠ [] := by
  decide

/-- C2: the precision planner yields scales `(1e-6, 1e-6, 1e-2)` for
geographic references and `(0.01, 0.01, 0.01)` otherwise; the offsets are
the bounding-box midpoints rounded to two decimals; and for the `e57`
format the result is always scales `(1, 1, 1)` and offsets `(0, 0, 0)`,
the override winning over the reference-based classification. -/
theorem C2_precision_planner (s : Summary) (ext : String) :
    (ext ≠ "e57" → s.isgeographic = true →
      (quantization s ext).1 = (1/1000000, 1/1000000, 1/100)) ∧
    (ext ≠ "e57" → s.isgeographic = false →
      (quantization s ext).1 = (1/100, 1/100, 1/100)) ∧
    (ext ≠ "e57" →
      (quantization s ext).2 =
        (round2 ((s.bounds.xmin + s.bounds.xmax) / 2),
         round2 ((s.bounds.ymin + s.bounds.ymax) / 2),
         round2 ((s.bounds.zmin + s.bounds.zmax) / 2))) ∧
    (quantization s "e57").1 = (1, 1, 1) ∧
    (quantization s "e57").2 = (0, 0, 0) := by
  refine ⟨?_, ?_, ?_, ?_, ?_⟩
  · intro hext hgeo
    simp [quantization, hext, hgeo]
  · intro hext hgeo
    simp [quantization, hext, hgeo]
  · intro hext
    have hx : s.bounds.xmin + (s.bounds.xmax - s.bounds.xmin) / 2 =
        (s.bounds.xmin + s.bounds.xmax) / 2 := by ring
    have hy : s.bounds.ymin + (s.bounds.ymax - s.bounds.ymin) / 2 =
        (s.bounds.ymin + s.bounds.ymax) / 2 := by ring
    have hz : s.bounds.zmin + (s.bounds.zmax - s.bounds.zmin) / 2 =
        (s.bounds.zmin + s.bounds.zmax) / 2 := by ring
    simp [quantization, hext, hx, hy, hz]
  · simp [quantization]
  · simp [quantization]

/-- Witness for C2 at scenario A of the spec (bbox X `[0,10]`, Y `[0,20]`,
Z `[0,5]`): geographic scales, the rounded midpoints, and the e57
override. -/
theorem C2_precision_planner_witness :
    (quantization ⟨true, ⟨0, 10, 0, 20, 0, 5⟩, ""⟩ "las").1 =
      (1/1000000, 1/1000000, 1/100) ∧
    (quantization ⟨false, ⟨0, 10, 0, 20, 0, 5⟩, ""⟩ "las").1 =
      (1/100, 1/100, 1/100) ∧
    (quantization ⟨true, ⟨0, 10, 0, 20, 0, 5⟩, ""⟩ "las").2 =
      (round2 ((0 + 10) / 2), round2 ((0 + 20) / 2), round2 ((0 + 5) / 2)) ∧
    (quantization ⟨true, ⟨0, 10, 0, 20, 0, 5⟩, ""⟩ "e57").1 = (1, 1, 1) ∧
    (quantization ⟨true, ⟨0, 10, 0, 20, 0, 5⟩, ""⟩ "e57").2 = (0, 0, 0) :=
  ⟨(C2_precision_planner ⟨true, ⟨0, 10, 0, 20, 0, 5⟩, ""⟩ "las").1 (by decide) rfl,
   (C2_precision_planner ⟨false, ⟨0, 10, 0, 20, 0, 5⟩, ""⟩ "las").2.1 (by decide) rfl,
   (C2_precision_planner ⟨true, ⟨0, 10, 0, 20, 0, 5⟩, ""⟩ "las").2.2.1 (by decide),
   (C2_precision_planner ⟨true, ⟨0, 10, 0, 20, 0, 5⟩, ""⟩ "las").2.2.2.1,
   (C2_precision_planner ⟨true, ⟨0, 10, 0, 20, 0, 5⟩, ""⟩ "las").2.2.2.2⟩

end Lopocs

namespace Lopocs

/-! ## Resolver helper lemmas -/

lemma scanEpsg_not_found {p_out : List Char} {lines : List (List Char)}
    (h : ∀ l ∈ lines, containsSub p_out l = false) :
    scanEpsg p_out lines = "4326" := by
  induction lines with
  | nil => rfl
  | cons line rest ih =>
    have h1 := h line (List.mem_cons_self _ _)
    simp only [scanEpsg, h1, Bool.false_eq_true, if_false]
    exact ih fun l hl => h l (List.mem_cons_of_mem _ hl)

lemma scanEpsg_skip {p_out : List Char} {pre : List (List Char)}
    (rest : List (List Char)) (h : ∀ l ∈ pre, containsSub p_out l = false) :
    scanEpsg p_out (pre ++ rest) = scanEpsg p_out rest := by
  induction pre with
  | nil => rfl
  | cons line pre' ih =>
    have h1 := h line (List.mem_cons_self _ _)
    simp only [List.cons_append, scanEpsg, h1, Bool.false_eq_true, if_false]
    exact ih fun l hl => h l (List.mem_cons_of_mem _ hl)

lemma scanEpsg_found {p_out line : List Char} {ds : List Char}
    (rest : List (List Char)) (hc : containsSub p_out line = true)
    (hb : bracketDigits line = some ds) :
    scanEpsg p_out (line :: rest) = String.mk ds := by
  simp [scanEpsg, hc, hb]

/-- Under a valid, non-local reference lacking a full authority pair,
`proj42epsg` takes the brute-force branch. -/
lemma proj42epsg_fallback (p : SpatialRef) (lines : List (List Char))
    (force : Bool) (hvalid : p.importResult ≠ 5) (hlocal : p.isLocal = false)
    (hauth : p.authorityName (cstypeOf p) = none ∨
      p.authorityCode (cstypeOf p) = none) :
    proj42epsg p lines force =
      if p.exportToProj4 ≠ "" then
        (if force then p.exportToProj4
         else scanEpsg p.exportToProj4.toList lines)
      else "4326" := by
  rcases hauth with h | h
  · cases hc : p.authorityCode (cstypeOf p) <;>
      simp [proj42epsg, hvalid, hlocal, h, hc]
  · cases hn : p.authorityName (cstypeOf p) <;>
      simp [proj42epsg, hvalid, hlocal, h, hn]

end Lopocs

namespace Lopocs

/-- C3: brute-force fallback of the SRID resolver.  For a valid,
non-local reference lacking authority name or code: scanning the EPSG
definitions file returns the angle-bracket-delimited digits of the first
line containing the re-exported PROJ string; with `forceProj4` set the
raw PROJ string is returned without scanning; with no matching line, or
with a failed (empty) re-export, the default `"4326"` is returned. -/
theorem C3_bruteforce_fallback (p : SpatialRef) (lines : List (List Char))
    (hvalid : p.importResult ≠ 5) (hlocal : p.isLocal = false)
    (hauth : p.authorityName (cstypeOf p) = none ∨
      p.authorityCode (cstypeOf p) = none) :
    (∀ pre line post ds, p.exportToProj4 ≠ "" →
      lines = pre ++ line :: post →
      (∀ l ∈ pre, containsSub p.exportToProj4.toList l = false) →
      containsSub p.exportToProj4.toList line = true →
      bracketDigits line = some ds →
      proj42epsg p lines false = String.mk ds) ∧
    (p.exportToProj4 ≠ "" → proj42epsg p lines true = p.exportToProj4) ∧
    ((∀ l ∈ lines, containsSub p.exportToProj4.toList l = false) →
      proj42epsg p lines false = "4326") ∧
    (p.exportToProj4 = "" → ∀ force, proj42epsg p lines force = "4326") := by
  refine ⟨?_, ?_, ?_, ?_⟩
  · intro pre line post ds hexp hsplit hpre hline hds
    rw [proj42epsg_fallback p lines false hvalid hlocal hauth, if_pos hexp,
      hsplit, scanEpsg_skip _ hpre, scanEpsg_found _ hline hds]
    simp
  · intro hexp
    rw [proj42epsg_fallback p lines true hvalid hlocal hauth, if_pos hexp]
    simp
  · intro hnone
    rw [proj42epsg_fallback p lines false hvalid hlocal hauth]
    by_cases hexp : p.exportToProj4 = ""
    · rw [if_neg (by simp [hexp])]
    · rw [if_pos hexp, scanEpsg_not_found hnone]
      simp
  · intro hexp force
    rw [proj42epsg_fallback p lines force hvalid hlocal hauth,
      if_neg (by simp [hexp])]

/-- Witness for C3: a reference re-exporting to `"+proj=eqc"`, scanned
against a two-line definitions file whose second line matches and carries
`<2154>`; plus the `forceProj4` and no-match behaviours. -/
theorem C3_bruteforce_fallback_witness :
    proj42epsg ⟨0, false, false, "", fun _ => none, fun _ => none, "+proj=eqc"⟩
      ["no match here".toList, "+proj=eqc <2154>".toList] false =
      String.mk "2154".toList ∧
    proj42epsg ⟨0, false, false, "", fun _ => none, fun _ => none, "+proj=eqc"⟩
      ["no match here".toList, "+proj=eqc <2154>".toList] true = "+proj=eqc" ∧
    proj42epsg ⟨0, false, false, "", fun _ => none, fun _ => none, "+proj=eqc"⟩
      ["no match here".toList] false = "4326" :=
  ⟨(C3_bruteforce_fallback _ _ (by decide) rfl (Or.inl rfl)).1
      ["no match here".toList] "+proj=eqc <2154>".toList [] "2154".toList
      (by decide) rfl (by decide) (by decide) (by decide),
   (C3_bruteforce_fallback _ _ (by decide) rfl (Or.inl rfl)).2.1 (by decide),
   (C3_bruteforce_fallback _ _ (by decide) rfl (Or.inl rfl)).2.2.1 (by decide)⟩

/-- C4: when parsing reports invalid (`ImportFromProj4` returns 5), the
resolver returns the default SRID `"4326"` as an ordinary value — the
modelled function is total, so no error is raised and the run
continues. -/
theorem C4_invalid_default (p : SpatialRef) (h : p.importResult = 5)
    (lines : List (List Char)) (force : Bool) :
    proj42epsg p lines force = "4326" := by
  simp [proj42epsg, h]

/-- Witness for C4. -/
theorem C4_invalid_default_witness :
    proj42epsg ⟨5, false, false, "", fun _ => none, fun _ => none, ""⟩
      [] false = "4326" :=
  C4_invalid_default _ rfl [] false

/-- C5: a valid non-local reference carrying both an authority name and
an authority code for its category returns the code directly, for every
definitions file and flag — so the definitions-file scan is never
consulted. -/
theorem C5_authority_fast_path (p : SpatialRef) (an ac : String)
    (hvalid : p.importResult ≠ 5) (hlocal : p.isLocal = false)
    (hname : p.authorityName (cstypeOf p) = some an)
    (hcode : p.authorityCode (cstypeOf p) = some ac) :
    ∀ lines force, proj42epsg p lines force = ac := by
  intro lines force
  simp [proj42epsg, hvalid, hlocal, hname, hcode]

/-- Witness for C5: a projected reference with authority `EPSG:2154`
resolves to `"2154"` on an empty definitions file. -/
theorem C5_authority_fast_path_witness :
    proj42epsg
      ⟨0, false, false, "", fun _ => some "EPSG", fun _ => some "2154", "+p"⟩
      [] false = "2154" :=
  C5_authority_fast_path _ "EPSG" "2154" (by decide) rfl rfl rfl [] false

/-- C6: a valid local reference returns its WKT export verbatim, for
every definitions file and flag. -/
theorem C6_local_wkt (p : SpatialRef) (hvalid : p.importResult ≠ 5)
    (hlocal : p.isLocal = true) (lines : List (List Char)) (force : Bool) :
    proj42epsg p lines force = p.wkt := by
  simp [proj42epsg, hvalid, hlocal]

/-- Witness for C6. -/
theorem C6_local_wkt_witness :
    proj42epsg
      ⟨0, true, false, "LOCAL_CS[\x22foo\x22]", fun _ => none, fun _ => none, ""⟩
      [] false = "LOCAL_CS[\x22foo\x22]" :=
  C6_local_wkt _ (by decide) rfl [] false

/-- C7: the assembled pipeline has exactly 4 stages in the fixed order
read, chip, reorder (revertmorton), write; the chip capacity is the
constant 400 for every input; and the write stage carries the six
quantization scalars, the SRID, and `overwrite="true"`. -/
theorem C7_pipeline_assembly (ext fn conn schema tab srid column : String)
    (sx sy sz ox oy oz : ℚ) :
    (jsonPipeline ext fn conn schema tab srid column sx sy sz ox oy oz).length = 4 ∧
    (jsonPipeline ext fn conn schema tab srid column sx sy sz ox oy oz)[0]? =
      some (Stage.read ext fn) ∧
    (jsonPipeline ext fn conn schema tab srid column sx sy sz ox oy oz)[1]? =
      some (Stage.chipper 400) ∧
    (jsonPipeline ext fn conn schema tab srid column sx sy sz ox oy oz)[2]? =
      some Stage.revertmorton ∧
    (jsonPipeline ext fn conn schema tab srid column sx sy sz ox oy oz)[3]? =
      some (Stage.write conn schema tab "none" srid "true" "points"
        sx sy sz ox oy oz) :=
  ⟨rfl, rfl, rfl, rfl, rfl⟩

/-- C8: the metadata step persists the TableMetadata record with the
ingestion quantization and SRID, and a second output-schema record whose
scales are the hardcoded `0.01` on all three axes regardless of the
ingestion scales (the statement is universal in the ingestion scales, so
it covers `(1e-6, 1e-6, 1e-2)` and the `(1, 1, 1)` e57 override). -/
theorem C8_metadata_step (table column srid : String)
    (sx sy sz ox oy oz : ℚ) :
    (metadataStep table column srid sx sy sz ox oy oz).1 =
      ⟨table, column, srid, sx, sy, sz, ox, oy, oz⟩ ∧
    (metadataStep table column srid sx sy sz ox oy oz).2 =
      ⟨table, column, 1/100, 1/100, 1/100, ox, oy, oz, srid⟩ :=
  ⟨rfl, rfl⟩

/-- C10 (implicit claim): the pipeline's write stage targets the literal
column `"points"` whatever the `column` argument is, while the metadata
and output-schema records are persisted under the caller-supplied column
name; so for any column other than `"points"` the persisted metadata
names a column the write stage did not target. -/
theorem C10_column_divergence (ext fn conn schema tab srid tbl column : String)
    (sx sy sz ox oy oz : ℚ) :
    ((jsonPipeline ext fn conn schema tab srid column sx sy sz ox oy oz)[3]?.bind
      Stage.writeColumn = some "points") ∧
    (metadataStep tbl column srid sx sy sz ox oy oz).1.column = column ∧
    (metadataStep tbl column srid sx sy sz ox oy oz).2.column = column ∧
    (column ≠ "points" →
      (jsonPipeline ext fn conn schema tab srid column sx sy sz ox oy oz)[3]?.bind
        Stage.writeColumn ≠
        some (metadataStep tbl column srid sx sy sz ox oy oz).1.column) := by
  refine ⟨rfl, rfl, rfl, ?_⟩
  intro hne hcontra
  simp only [jsonPipeline, metadataStep, Stage.writeColumn] at hcontra
  exact hne (Option.some_injective _ hcontra).symm

/-- Witness for C10 at the column argument `"patch"`. -/
theorem C10_column_divergence_witness :
    (jsonPipeline "las" "f.las" "conn" "public" "pts" "2154" "patch"
      1 1 1 0 0 0)[3]?.bind Stage.writeColumn ≠
      some (metadataStep "public.pts" "patch" "2154" 1 1 1 0 0 0).1.column :=
  (C10_column_divergence "las" "f.las" "conn" "public" "pts" "2154"
    "public.pts" "patch" 1 1 1 0 0 0).2.2.2 (by decide)

end Lopocs

namespace Lopocs

/-! ## Injectivity of the textual renderings -/

lemma natDigitsRev_eq (f : Nat) : ∀ n : Nat, n ≤ f →
    natDigitsRev f n = Nat.digits 10 n := by
  induction f with
  | zero =>
    intro n h
    interval_cases n
    simp [natDigitsRev]
  | succ f ih =>
    intro n h
    by_cases hn : n = 0
    · subst hn; simp [natDigitsRev]
    · have hpos : 0 < n := Nat.pos_of_ne_zero hn
      rw [natDigitsRev, if_neg hn,
        Nat.digits_def' (by norm_num : (1:ℕ) < 10) hpos]
      congr 1
      have hdiv : n / 10 < n := Nat.div_lt_self hpos (by norm_num)
      exact ih _ (Nat.lt_succ_iff.mp (lt_of_lt_of_le hdiv h))

lemma natStr_eq (n : Nat) :
    natStr n = if n = 0 then ['0'] else ((Nat.digits 10 n).map digChar).reverse := by
  unfold natStr
  rw [natDigitsRev_eq n n le_rfl]

lemma charDig_digChar {d : Nat} (h : d < 10) : charDig (digChar d) = d := by
  interval_cases d <;> decide

lemma digChar_ne_dash {d : Nat} (h : d < 10) : digChar d ≠ '-' := by
  interval_cases d <;> decide

lemma digChar_ne_slash {d : Nat} (h : d < 10) : digChar d ≠ '/' := by
  interval_cases d <;> decide

lemma map_charDig_map_digChar (l : List Nat) (h : ∀ d ∈ l, d < 10) :
    (l.map digChar).map charDig = l := by
  induction l with
  | nil => rfl
  | cons d rest ih =>
    simp only [List.map_cons, List.cons.injEq]
    exact ⟨charDig_digChar (h d (List.mem_cons_self _ _)),
      ih fun x hx => h x (List.mem_cons_of_mem _ hx)⟩

/-- Decoder for `natStr`, a left inverse witnessing its injectivity. -/
def decodeNat (l : List Char) : Nat :=
  Nat.ofDigits 10 (l.reverse.map charDig)

lemma decodeNat_natStr (n : Nat) : decodeNat (natStr n) = n := by
  rw [natStr_eq]
  by_cases hn : n = 0
  · subst hn; decide
  · rw [if_neg hn]
    unfold decodeNat
    rw [List.reverse_reverse,
      map_charDig_map_digChar _ fun d hd => Nat.digits_lt_base (by norm_num) hd]
    exact Nat.ofDigits_digits 10 n

lemma natStr_injective : Function.Injective natStr :=
  Function.LeftInverse.injective decodeNat_natStr

lemma natStr_no_dash {n : Nat} : '-' ∉ natStr n := by
  rw [natStr_eq]
  split
  · decide
  · intro hmem
    rw [List.mem_reverse, List.mem_map] at hmem
    obtain ⟨d, hd, hc⟩ := hmem
    exact digChar_ne_dash (Nat.digits_lt_base (by norm_num) hd) hc

lemma natStr_no_slash {n : Nat} : '/' ∉ natStr n := by
  rw [natStr_eq]
  split
  · decide
  · intro hmem
    rw [List.mem_reverse, List.mem_map] at hmem
    obtain ⟨d, hd, hc⟩ := hmem
    exact digChar_ne_slash (Nat.digits_lt_base (by norm_num) hd) hc

lemma intStr_no_slash {i : Int} : '/' ∉ intStr i := by
  unfold intStr
  split
  · intro hmem
    rcases List.mem_cons.mp hmem with h | h
    · exact absurd h (by decide)
    · exact natStr_no_slash h
  · exact natStr_no_slash

lemma intStr_injective : Function.Injective intStr := by
  intro i j h
  unfold intStr at h
  split at h <;> split at h <;> rename_i hi hj
  · simp only [List.cons.injEq, true_and] at h
    have := natStr_injective h
    omega
  · exact absurd (h ▸ List.mem_cons_self '-' (natStr i.natAbs)) natStr_no_dash
  · exact absurd (h.symm ▸ List.mem_cons_self '-' (natStr j.natAbs)) natStr_no_dash
  · have := natStr_injective h
    omega

lemma slash_split {a b : List Char} : ∀ {a' b' : List Char},
    '/' ∉ a → '/' ∉ a' → a ++ '/' :: b = a' ++ '/' :: b' → a = a' ∧ b = b' := by
  induction a with
  | nil =>
    intro a' b' _ ha' h
    cases a' with
    | nil =>
      simp only [List.nil_append, List.cons.injEq, true_and] at h
      exact ⟨rfl, h⟩
    | cons c t =>
      simp only [List.nil_append, List.cons_append, List.cons.injEq] at h
      exact absurd (h.1 ▸ List.mem_cons_self c t) ha'
  | cons c t ih =>
    intro a' b' ha ha' h
    cases a' with
    | nil =>
      simp only [List.cons_append, List.nil_append, List.cons.injEq] at h
      exact absurd (h.1.symm ▸ List.mem_cons_self c t) ha
    | cons c' t' =>
      simp only [List.cons_append, List.cons.injEq] at h
      obtain ⟨hc, ht⟩ := h
      have hrec := ih (fun hm => ha (List.mem_cons_of_mem _ hm))
        (fun hm => ha' (List.mem_cons_of_mem _ hm)) ht
      exact ⟨by rw [hc, hrec.1], hrec.2⟩

lemma ratStr_injective : Function.Injective ratStr := by
  intro q r h
  unfold ratStr at h
  obtain ⟨h1, h2⟩ := slash_split intStr_no_slash intStr_no_slash h
  have hnum := intStr_injective h1
  have hden := natStr_injective h2
  exact Rat.ext hnum hden

/-! ## Cancellation chase for the cache filename -/

lemma cacheFile_eq (t c : List Char) (lodMin lodMax : Nat)
    (x1 y1 z1 x2 y2 z2 : ℚ) :
    cacheFile t c lodMin lodMax x1 y1 z1 x2 y2 z2 =
      t ++ '_' :: (c ++ '_' :: (natStr lodMin ++ '_' :: (natStr lodMax ++ '_' ::
        (ratStr x1 ++ '_' :: (ratStr y1 ++ '_' :: (ratStr z1 ++ '_' ::
          (ratStr x2 ++ '_' :: (ratStr y2 ++ '_' ::
            (ratStr z2 ++ ".hcy".toList))))))))) := by
  simp [cacheFile, List.intercalate, List.intersperse_cons₂,
    List.intersperse_single, List.append_assoc]

/-- Strip an equal prefix followed by an equal character. -/
lemma strip {p x y : List Char} {ch : Char}
    (h : p ++ ch :: x = p ++ ch :: y) : x = y := by
  have h1 := List.append_cancel_left h
  injection h1

lemma cacheFile_arg1 {t c : List Char} {lmin lmax : Nat}
    {a b c3 d e f a' : ℚ}
    (h : cacheFile t c lmin lmax a b c3 d e f =
      cacheFile t c lmin lmax a' b c3 d e f) : a = a' := by
  rw [cacheFile_eq, cacheFile_eq] at h
  apply ratStr_injective
  exact List.append_cancel_right (strip (strip (strip (strip h))))

lemma cacheFile_arg2 {t c : List Char} {lmin lmax : Nat}
    {a b c3 d e f b' : ℚ}
    (h : cacheFile t c lmin lmax a b c3 d e f =
      cacheFile t c lmin lmax a b' c3 d e f) : b = b' := by
  rw [cacheFile_eq, cacheFile_eq] at h
  apply ratStr_injective
  exact List.append_cancel_right (strip (strip (strip (strip (strip h)))))

lemma cacheFile_arg3 {t c : List Char} {lmin lmax : Nat}
    {a b c3 d e f c3' : ℚ}
    (h : cacheFile t c lmin lmax a b c3 d e f =
      cacheFile t c lmin lmax a b c3' d e f) : c3 = c3' := by
  rw [cacheFile_eq, cacheFile_eq] at h
  apply ratStr_injective
  exact List.append_cancel_right (strip (strip (strip (strip (strip (strip h))))))

lemma cacheFile_arg4 {t c : List Char} {lmin lmax : Nat}
    {a b c3 d e f d' : ℚ}
    (h : cacheFile t c lmin lmax a b c3 d e f =
      cacheFile t c lmin lmax a b c3 d' e f) : d = d' := by
  rw [cacheFile_eq, cacheFile_eq] at h
  apply ratStr_injective
  exact List.append_cancel_right
    (strip (strip (strip (strip (strip (strip (strip h)))))))

lemma cacheFile_arg5 {t c : List Char} {lmin lmax : Nat}
    {a b c3 d e f e' : ℚ}
    (h : cacheFile t c lmin lmax a b c3 d e f =
      cacheFile t c lmin lmax a b c3 d e' f) : e = e' := by
  rw [cacheFile_eq, cacheFile_eq] at h
  apply ratStr_injective
  exact List.append_cancel_right
    (strip (strip (strip (strip (strip (strip (strip (strip h))))))))

lemma cacheFile_arg6 {t c : List Char} {lmin lmax : Nat}
    {a b c3 d e f f' : ℚ}
    (h : cacheFile t c lmin lmax a b c3 d e f =
      cacheFile t c lmin lmax a b c3 d e f') : f = f' := by
  rw [cacheFile_eq, cacheFile_eq] at h
  apply ratStr_injective
  exact List.append_cancel_right
    (strip (strip (strip (strip (strip (strip (strip (strip (strip h)))))))))

end Lopocs

namespace Lopocs

/-- C9: the cache filename is a deterministic function of table, column,
LOD bounds and the six bounding-box scalars, and changing any single
bounding-box scalar (the others held fixed) changes the filename. -/
theorem C9_cache_filename (t c : List Char) (lmin lmax : Nat)
    (a b c3 d e f a' b' c3' d' e' f' : ℚ) :
    (a = a' → b = b' → c3 = c3' → d = d' → e = e' → f = f' →
      cacheFile t c lmin lmax a b c3 d e f =
        cacheFile t c lmin lmax a' b' c3' d' e' f') ∧
    (a ≠ a' → cacheFile t c lmin lmax a b c3 d e f ≠
      cacheFile t c lmin lmax a' b c3 d e f) ∧
    (b ≠ b' → cacheFile t c lmin lmax a b c3 d e f ≠
      cacheFile t c lmin lmax a b' c3 d e f) ∧
    (c3 ≠ c3' → cacheFile t c lmin lmax a b c3 d e f ≠
      cacheFile t c lmin lmax a b c3' d e f) ∧
    (d ≠ d' → cacheFile t c lmin lmax a b c3 d e f ≠
      cacheFile t c lmin lmax a b c3 d' e f) ∧
    (e ≠ e' → cacheFile t c lmin lmax a b c3 d e f ≠
      cacheFile t c lmin lmax a b c3 d e' f) ∧
    (f ≠ f' → cacheFile t c lmin lmax a b c3 d e f ≠
      cacheFile t c lmin lmax a b c3 d e f') := by
  refine ⟨?_, ?_, ?_, ?_, ?_, ?_, ?_⟩
  · rintro rfl rfl rfl rfl rfl rfl
    rfl
  · exact fun hne heq => hne (cacheFile_arg1 heq)
  · exact fun hne heq => hne (cacheFile_arg2 heq)
  · exact fun hne heq => hne (cacheFile_arg3 heq)
  · exact fun hne heq => hne (cacheFile_arg4 heq)
  · exact fun hne heq => hne (cacheFile_arg5 heq)
  · exact fun hne heq => hne (cacheFile_arg6 heq)

/-- Witness for C9: changing the first bounding-box scalar from 0 to 1
changes the concrete filename. -/
theorem C9_cache_filename_witness :
    cacheFile "public.pts".toList "points".toList 0 5 0 0 0 10 20 5 ≠
      cacheFile "public.pts".toList "points".toList 0 5 1 0 0 10 20 5 :=
  (C9_cache_filename "public.pts".toList "points".toList 0 5
    0 0 0 10 20 5 1 0 0 10 20 5).2.1 (by norm_num)

end Lopocs
